import Mathlib

/-!
Shallow embedding of the EnergyGrid data aggregator repository:
`src/Assign/aggregator.js` (createBatches, aggregateResults,
aggregateAllDevices, generateSerialNumbers), `src/Assign/rateLimiter.js`
(the admission-timing behaviour of RateLimiter.processQueue) and the
client module (fetchDeviceData with its retry policy), together with
proofs of the specified properties.

JavaScript numbers are modelled as exact rationals extended with NaN and
the signed infinities (`JsNum`); values reachable from JSON.parse output
are modelled by `JsVal`, extended with `undefined` because property
access can produce it. A JavaScript throw is modelled with `Except`,
carrying the thrown error message.
-/

namespace EnergyGrid

/-- JavaScript numeric value: NaN, a signed infinity, or a finite value
(modelled as an exact rational). -/
inductive JsNum where
  | nan : JsNum
  | inf (positive : Bool) : JsNum
  | fin (q : ℚ) : JsNum
deriving DecidableEq, Repr

/-- JavaScript value as reachable from JSON.parse output, plus the
`undefined` produced by reading an absent property. -/
inductive JsVal where
  | null : JsVal
  | undefined : JsVal
  | bool (b : Bool) : JsVal
  | num (q : ℚ) : JsVal
  | str (s : String) : JsVal
  | arr (elems : List JsVal) : JsVal
  | obj (fields : List (String × JsVal)) : JsVal

/-- JavaScript truthiness (ToBoolean) on the modelled values. Any array
or object is truthy, including the empty ones. -/
def JsVal.truthy : JsVal → Bool
  | .null => false
  | .undefined => false
  | .bool b => b
  | .num q => decide (q ≠ 0)
  | .str s => decide (s ≠ "")
  | .arr _ => true
  | .obj _ => true

/-- Evaluation of the member access `v.k`: on null or undefined it
throws a TypeError (the V8 message text); `length` is an own property of
strings and arrays; the other primitives yield undefined for every field
this program reads; on an object a missing field yields undefined and a
duplicate key is resolved to the last binding, as JSON.parse does. -/
def JsVal.getField : JsVal → String → Except String JsVal
  | .null, k =>
      .error ("Cannot read properties of null (reading \x27" ++ k ++ "\x27)")
  | .undefined, k =>
      .error ("Cannot read properties of undefined (reading \x27" ++ k ++ "\x27)")
  | .str s, k => .ok (if k = "length" then .num (s.length : ℚ) else .undefined)
  | .arr xs, k => .ok (if k = "length" then .num (xs.length : ℚ) else .undefined)
  | .obj fields, k => .ok ((fields.reverse.lookup k).getD .undefined)
  | .bool _, _ => .ok .undefined
  | .num _, _ => .ok .undefined

/-- Array.isArray on a modelled value. -/
def JsVal.isArray : JsVal → Bool
  | .arr _ => true
  | _ => false

/-- Test used by the source guard `!isNaN(powerValue)`. -/
def JsNum.isNaN : JsNum → Bool
  | .nan => true
  | _ => false

/-- JavaScript addition of two numbers. -/
def JsNum.add : JsNum → JsNum → JsNum
  | .nan, _ => .nan
  | _, .nan => .nan
  | .inf s, .inf t => if s = t then .inf s else .nan
  | .inf s, .fin _ => .inf s
  | .fin _, .inf t => .inf t
  | .fin a, .fin b => .fin (a + b)

/-- JavaScript division of a number by a nonnegative-integer count, as
in `totalPower / totalDevices`: a zero divisor yields NaN for a zero
dividend and a signed infinity otherwise. -/
def JsNum.divByCount : JsNum → ℕ → JsNum
  | .nan, _ => .nan
  | .inf s, _ => .inf s
  | .fin q, 0 => if q = 0 then .nan else .inf (decide (0 < q))
  | .fin q, (n + 1) => .fin (q / ((n : ℚ) + 1))

/-- Multiplication by the literal 100, as in
`(onlineDevices / totalDevices) * 100`. -/
def JsNum.mul100 : JsNum → JsNum
  | .nan => .nan
  | .inf s => .inf s
  | .fin q => .fin (q * 100)

/-- Number.prototype.toFixed(2) on a nonnegative finite value per
ECMA-262: the integer n closest to 100 times the value, ties resolved
toward the larger n, rendered with exactly two digits after the point.
For a rational argument that n is the floor of 100 q + 1/2. -/
def toFixed2Nonneg (q : ℚ) : String :=
  let n : ℕ := (Int.floor (q * 100 + 1 / 2)).toNat
  toString (n / 100) ++ "." ++ (if n % 100 < 10 then "0" else "") ++ toString (n % 100)

/-- Number.prototype.toFixed(2) on a modelled JavaScript number: a
negative finite value is rendered as the sign followed by the rendering
of its negation (ECMA-262 extracts the sign first); NaN renders as NaN
and the infinities as Infinity and -Infinity. -/
def JsNum.toFixed2 : JsNum → String
  | .nan => "NaN"
  | .inf true => "Infinity"
  | .inf false => "-Infinity"
  | .fin q => if q < 0 then "-" ++ toFixed2Nonneg (-q) else toFixed2Nonneg q

/-- Characters skipped by parseFloat as leading whitespace (the ASCII
whitespace subset; the program never feeds the exotic Unicode ones). -/
def isJsSpace (c : Char) : Bool :=
  c == ' ' || c == '\t' || c == '\n' || c == '\r' || c == '\x0b' || c == '\x0c'

/-- Longest leading run of decimal digits of a character list: its value,
its number of digits, and the remaining characters. -/
def takeDigits : ℕ → ℕ → List Char → ℕ × ℕ × List Char
  | acc, count, [] => (acc, count, [])
  | acc, count, c :: cs =>
    if c.isDigit then takeDigits (acc * 10 + (c.toNat - 48)) (count + 1) cs
    else (acc, count, c :: cs)

/-- ExponentPart of the parseFloat grammar: an e or E, an optional sign
and at least one digit scale the mantissa; anything else leaves the
parsed prefix (and hence the value) unchanged. -/
def applyExponent (m : ℚ) : List Char → ℚ
  | [] => m
  | c :: rest =>
    if c == 'e' || c == 'E' then
      let signedDigits : Bool × List Char :=
        match rest with
        | '+' :: r2 => (false, r2)
        | '-' :: r2 => (true, r2)
        | _ => (false, rest)
      let parsed := takeDigits 0 0 signedDigits.2
      if parsed.2.1 = 0 then m
      else if signedDigits.1 then m / (10 ^ parsed.1) else m * (10 ^ parsed.1)
    else m

/-- Unsigned StrDecimalLiteral of the parseFloat grammar: digits with an
optional fraction, or a fraction alone, then an optional exponent; none
when not even one digit is present. -/
def parseDecimal (cs : List Char) : Option ℚ :=
  let intPart := takeDigits 0 0 cs
  let fracPart :=
    match intPart.2.2 with
    | '.' :: cs2 => takeDigits 0 0 cs2
    | other => (0, 0, other)
  if intPart.2.1 = 0 ∧ fracPart.2.1 = 0 then none
  else
    let mantissa : ℚ := (intPart.1 : ℚ) + (fracPart.1 : ℚ) / (10 ^ fracPart.2.1)
    some (applyExponent mantissa fracPart.2.2)

/-- parseFloat on a string: skip leading whitespace, take an optional
sign, then the longest StrDecimalLiteral prefix, with the Infinity
literal allowed; when no prefix parses the result is NaN. -/
def jsParseFloat (s : String) : JsNum :=
  let cs := s.toList.dropWhile isJsSpace
  let signedRest : Bool × List Char :=
    match cs with
    | '-' :: r => (true, r)
    | '+' :: r => (false, r)
    | _ => (false, cs)
  if signedRest.2.take 8 = "Infinity".toList then JsNum.inf (!signedRest.1)
  else
    match parseDecimal signedRest.2 with
    | none => .nan
    | some q => .fin (if signedRest.1 then -q else q)

/-- parseFloat applied to an arbitrary value, which JavaScript coerces
to a string first. A finite number round-trips through its string form;
a string is parsed directly. An array coerces to the comma-join of its
coerced elements with null and undefined rendered empty, and since no
numeral extends across a comma the parsed prefix is exactly that of the
first element (an empty array gives the empty string); booleans, null,
undefined and plain objects coerce to non-numeric strings. -/
def jsParseFloatVal : JsVal → JsNum
  | .num q => .fin q
  | .str s => jsParseFloat s
  | .arr (JsVal.num q :: _) => .fin q
  | .arr (JsVal.str s :: _) => jsParseFloat s
  | .arr (JsVal.arr inner :: _) => jsParseFloatVal (.arr inner)
  | .arr _ => .nan
  | _ => .nan

/-- Strict-equality test `device.status === "Online"` of the source:
true exactly for the string primitive Online; `===` between a non-string
value and a string literal is false. -/
def isOnline : JsVal → Bool
  | .str s => s == "Online"
  | _ => false

/-- Accumulator object built by aggregateResults before the summary is
attached (the `aggregated` local of the source). -/
structure AggState where
  totalDevices : ℕ
  onlineDevices : ℕ
  offlineDevices : ℕ
  totalPower : JsNum
  devices : List JsVal

/-- Initial accumulator: counts zero, totalPower the number 0, no
devices. -/
def initAggState : AggState := ⟨0, 0, 0, .fin 0, []⟩

/-- Body of the inner forEach of aggregateResults for one device record:
count the device and push it, classify it by `status === "Online"`, then
add its parsed power value when that value is not NaN. Property access
on a null or undefined record throws a TypeError which the source does
not catch. -/
def processDevice (acc : AggState) (device : JsVal) : Except String AggState := do
  let acc := { acc with totalDevices := acc.totalDevices + 1,
                        devices := acc.devices ++ [device] }
  let st ← device.getField "status"
  let acc :=
    if isOnline st then { acc with onlineDevices := acc.onlineDevices + 1 }
    else { acc with offlineDevices := acc.offlineDevices + 1 }
  let pw ← device.getField "power"
  let powerValue := jsParseFloatVal pw
  pure (if powerValue.isNaN then acc
        else { acc with totalPower := acc.totalPower.add powerValue })

/-- Guard of the outer forEach, `response && response.data &&
Array.isArray(response.data)`, returning the data elements when it
passes. The left-to-right && reads the data field only on a truthy
response, so that access cannot throw (a truthy value is neither null
nor undefined). -/
def responseData (response : JsVal) : Option (List JsVal) :=
  if response.truthy then
    match response.getField "data" with
    | .error _ => none
    | .ok d =>
      if d.truthy then
        match d with
        | .arr elems => some elems
        | _ => none
      else none
  else none

/-- Outer forEach body of aggregateResults for one response: fold the
device records of a well-formed response into the accumulator, skip a
malformed response entirely. -/
def processResponse (acc : AggState) (response : JsVal) : Except String AggState :=
  match responseData response with
  | none => .ok acc
  | some elems => elems.foldlM processDevice acc

/-- Summary object attached at the end of aggregateResults: the power
figures are strings because the source renders them with toFixed(2), and
the success rate carries a percent sign. -/
structure AggSummary where
  totalDevices : ℕ
  onlineDevices : ℕ
  offlineDevices : ℕ
  totalPowerKW : String
  averagePowerKW : String
  successRate : String
deriving DecidableEq, Repr

/-- Return value of aggregateResults: the accumulated fields plus the
derived summary. -/
structure Aggregated where
  totalDevices : ℕ
  onlineDevices : ℕ
  offlineDevices : ℕ
  totalPower : JsNum
  devices : List JsVal
  summary : AggSummary

/-- Summary computation of the source, including the unguarded divisions
`totalPower / totalDevices` and `(onlineDevices / totalDevices) * 100`. -/
def mkSummary (a : AggState) : AggSummary :=
  { totalDevices := a.totalDevices
    onlineDevices := a.onlineDevices
    offlineDevices := a.offlineDevices
    totalPowerKW := a.totalPower.toFixed2
    averagePowerKW := (a.totalPower.divByCount a.totalDevices).toFixed2
    successRate :=
      ((JsNum.fin (a.onlineDevices : ℚ)).divByCount a.totalDevices).mul100.toFixed2
        ++ "%" }

/-- aggregateResults of src/Assign/aggregator.js: fold the responses
into the accumulator (a throw from a malformed device record propagates
to the caller) and attach the derived summary. -/
def aggregateResults (allResults : List JsVal) : Except String Aggregated := do
  let a ← allResults.foldlM processResponse initAggState
  pure { totalDevices := a.totalDevices, onlineDevices := a.onlineDevices,
         offlineDevices := a.offlineDevices, totalPower := a.totalPower,
         devices := a.devices, summary := mkSummary a }

/-- createBatches of src/Assign/aggregator.js. The source loop advances
an index i from 0 by batchSize and pushes array.slice(i, i + batchSize);
relative to the unprocessed suffix that slice is take batchSize and the
advance is drop batchSize. On batchSize = 0, where the source loop never
terminates, this total model returns [] — that case is analysed
separately through batchLoopIdx below. -/
def createBatches (array : List α) (batchSize : ℕ) : List (List α) :=
  if _hk : batchSize = 0 then []
  else
    match array with
    | [] => []
    | a :: as =>
      (a :: as).take batchSize :: createBatches ((a :: as).drop batchSize) batchSize
termination_by array.length
decreasing_by
  simp only [List.length_drop, List.length_cons]
  omega

/-- Loop index of the createBatches for-loop after n guard evaluations,
with the index and the step as integers so that the nonpositive steps of
the i += batchSize update are representable: from 0, every iteration
whose guard i < len holds adds batchSize, and once the guard fails the
index stays put. -/
def batchLoopIdx (len batchSize : ℤ) : ℕ → ℤ
  | 0 => 0
  | n + 1 =>
    let i := batchLoopIdx len batchSize n
    if i < len then i + batchSize else i

/-- String(i).padStart(3, "0"). -/
def padStart3Zero (s : String) : String :=
  String.mk (List.replicate (3 - s.length) '0') ++ s

/-- generateSerialNumbers of src/Assign/aggregator.js: the serial
numbers SN-000 up to the padded count. -/
def generateSerialNumbers (count : ℕ) : List String :=
  (List.range count).map (fun i => "SN-" ++ padStart3Zero (toString i))

/-- minInterval computed by the RateLimiter constructor,
1000 / requestsPerSecond milliseconds (exact, where the source computes
in floating point). -/
def minIntervalOf (requestsPerSecond : ℚ) : ℚ := 1000 / requestsPerSecond

/-- State of the rate limiter relevant to admission timing: its
lastRequestTime field (initially 0) and the current reading of the
Date.now clock, in milliseconds. -/
structure GateState where
  lastRequestTime : ℚ
  now : ℚ

/-- One iteration of the processQueue while-loop of
src/Assign/rateLimiter.js for the next queued item, given the idle time
elapsed since the previous state (0 while the loop runs on a non-empty
queue, positive when the queue had drained and a later execute call
restarted processing) and the running time of the item itself: if less
than minInterval elapsed since lastRequestTime, sleep the remainder;
record the admission start in lastRequestTime; run the item. Returns the
admission-start time together with the new state. -/
def gateStep (minInterval : ℚ) (s : GateState) (idle dur : ℚ) : ℚ × GateState :=
  let now := s.now + idle
  let timeSinceLastRequest := now - s.lastRequestTime
  let start :=
    if timeSinceLastRequest < minInterval then
      now + (minInterval - timeSinceLastRequest)
    else now
  (start, ⟨start, start + dur⟩)

/-- Admission-start times of a sequence of work items run through the
gate, each item given as (idle time before its loop iteration, duration
of its work). -/
def gateStarts (minInterval : ℚ) (s : GateState) : List (ℚ × ℚ) → List ℚ
  | [] => []
  | item :: rest =>
    (gateStep minInterval s item.1 item.2).1 ::
      gateStarts minInterval (gateStep minInterval s item.1 item.2).2 rest

/-- Outcome of one transport attempt of the client module: an HTTP
response with its status code and raw body, or a request error event. -/
inductive Outcome where
  | http (status : ℕ) (body : String) : Outcome
  | netError (message : String) : Outcome

/-- Errors with which fetchDeviceData rejects, one constructor per
reject site of the source. -/
inductive FetchErr where
  | validation : FetchErr
  | parseFailed (msg : String) : FetchErr
  | rateLimitExceeded (status : ℕ) : FetchErr
  | authFailed (status : ℕ) : FetchErr
  | requestFailed (status : ℕ) (body : String) : FetchErr
  | network (msg : String) : FetchErr
deriving DecidableEq, Repr

/-- Message string of each rejection, exactly as the source builds it; a
network error at an exhausted budget rejects the original error object,
so its message is passed through. -/
def FetchErr.message : FetchErr → String
  | .validation => "Batch size cannot exceed 10 devices"
  | .parseFailed m => "Failed to parse response: " ++ m
  | .rateLimitExceeded s => "Rate limit exceeded after retries. Status: " ++ toString s
  | .authFailed s => "Authentication failed. Status: " ++ toString s
  | .requestFailed s b => "Request failed. Status: " ++ toString s ++ ", Response: " ++ b
  | .network m => m

/-- Trace of one fetchDeviceData call: the settled result, the number of
transport attempts performed, and the sleep (ms) preceding each retry,
in order. -/
structure FetchTrace where
  result : Except FetchErr JsVal
  attempts : ℕ
  delays : List ℕ

/-- fetchDeviceData of the client module, with JSON.parse abstracted as
the parse parameter and the network as a map from attempt number to
outcome. Mirrors the source dispatch: batch-size validation before any
request; 200 resolves the parsed body or rejects a ParseError; 429
retries after 1500 ms while retries remain, else rejects; 401 rejects
immediately; any other status retries after 1000 ms while retries remain
and the status is at least 500, else rejects; a request error event
retries after 1000 ms while retries remain, else rejects the error. -/
def fetchAttempts (parse : String → Except String JsVal)
    (transport : ℕ → Outcome) (serialNumbers : List String) :
    (retries : ℕ) → (attemptIdx : ℕ) → FetchTrace
  | retries, k =>
    if serialNumbers.length > 10 then ⟨.error .validation, 0, []⟩
    else
      match transport k with
      | .http status body =>
        if status = 200 then
          match parse body with
          | .ok parsed => ⟨.ok parsed, 1, []⟩
          | .error m => ⟨.error (.parseFailed m), 1, []⟩
        else if status = 429 then
          match retries with
          | r + 1 =>
            let t := fetchAttempts parse transport serialNumbers r (k + 1)
            ⟨t.result, t.attempts + 1, 1500 :: t.delays⟩
          | 0 => ⟨.error (.rateLimitExceeded status), 1, []⟩
        else if status = 401 then ⟨.error (.authFailed status), 1, []⟩
        else
          match retries with
          | r + 1 =>
            if status ≥ 500 then
              let t := fetchAttempts parse transport serialNumbers r (k + 1)
              ⟨t.result, t.attempts + 1, 1000 :: t.delays⟩
            else ⟨.error (.requestFailed status body), 1, []⟩
          | 0 => ⟨.error (.requestFailed status body), 1, []⟩
      | .netError m =>
        match retries with
        | r + 1 =>
          let t := fetchAttempts parse transport serialNumbers r (k + 1)
          ⟨t.result, t.attempts + 1, 1000 :: t.delays⟩
        | 0 => ⟨.error (.network m), 1, []⟩

/-- fetchDeviceData with the default retry budget of 3 of the source
signature; attempts are numbered from 0. -/
def fetchDeviceData (parse : String → Except String JsVal)
    (transport : ℕ → Outcome) (serialNumbers : List String) : FetchTrace :=
  fetchAttempts parse transport serialNumbers 3 0

/-- Error record pushed by the catch block of aggregateAllDevices. -/
structure ErrRecord where
  batch : ℕ
  serialNumbers : List String
  error : String
deriving DecidableEq, Repr

/-- Member-access chain result.data.length evaluated by the success-path
console.log of aggregateAllDevices; it throws exactly when the result,
or its data field, is null or undefined. -/
def dataLengthAccess (result : JsVal) : Except String JsVal := do
  let d ← result.getField "data"
  d.getField "length"

/-- Per-chunk loop of aggregateAllDevices, with the per-chunk dispatch
through the rate limiter abstracted as a map from 0-based chunk index to
either a resolved response or a rejection message. The success branch
first pushes the result onto allResults and then logs
result.data.length; a throw in that log statement is caught by the same
catch as a dispatch rejection, so it also records an error for the
chunk. The catch records the 1-based batch number, the serial numbers of
the chunk and the message. -/
def runChunks (outcomes : ℕ → Except String JsVal) :
    (idx : ℕ) → List (List String) → List JsVal × List ErrRecord
  | _, [] => ([], [])
  | i, chunk :: rest =>
    let tail := runChunks outcomes (i + 1) rest
    match outcomes i with
    | .ok result =>
      match dataLengthAccess result with
      | .ok _ => (result :: tail.1, tail.2)
      | .error m => (result :: tail.1, ⟨i + 1, chunk, m⟩ :: tail.2)
    | .error m => (tail.1, ⟨i + 1, chunk, m⟩ :: tail.2)

/-- Return value of aggregateAllDevices; aggregated is an Except because
aggregateResults itself can throw on a malformed device record, which
would escape as a top-level fault. -/
structure RunOutcome where
  aggregated : Except String Aggregated
  errors : List ErrRecord
  batchesProcessed : ℕ
  batchesSuccessful : ℕ
  batchesFailed : ℕ

/-- aggregateAllDevices of src/Assign/aggregator.js: 500 generated
serial numbers split into batches of 10, each batch resolved in order
through the rate limiter and fetchDeviceData (abstracted into the
outcomes map), the collected successes then aggregated. -/
def aggregateAllDevices (outcomes : ℕ → Except String JsVal) : RunOutcome :=
  let serialNumbers := generateSerialNumbers 500
  let batches := createBatches serialNumbers 10
  let results := runChunks outcomes 0 batches
  { aggregated := aggregateResults results.1
    errors := results.2
    batchesProcessed := batches.length
    batchesSuccessful := results.1.length
    batchesFailed := results.2.length }

/-! ### Properties of createBatches -/

theorem createBatches_nil (k : ℕ) : createBatches ([] : List α) k = [] := by
  unfold createBatches
  split <;> rfl

theorem createBatches_cons (l : List α) (k : ℕ) (hk : k ≠ 0) (hl : l ≠ []) :
    createBatches l k = l.take k :: createBatches (l.drop k) k := by
  cases l with
  | nil => exact absurd rfl hl
  | cons a as =>
    rw [createBatches]
    simp [hk]

theorem createBatches_flatten_of_le (k : ℕ) (hk : k ≠ 0) :
    ∀ (n : ℕ) (l : List α), l.length ≤ n → (createBatches l k).flatten = l := by
  intro n
  induction n with
  | zero =>
    intro l hl
    have h0 : l = [] := List.eq_nil_of_length_eq_zero (Nat.le_zero.mp hl)
    subst h0
    simp [createBatches_nil]
  | succ n ih =>
    intro l hl
    by_cases hl0 : l = []
    · subst hl0; simp [createBatches_nil]
    · have h1 : 0 < l.length := List.length_pos.mpr hl0
      have hdrop : (l.drop k).length ≤ n := by
        simp only [List.length_drop]; omega
      rw [createBatches_cons l k hk hl0, List.flatten_cons, ih (l.drop k) hdrop,
        List.take_append_drop]

theorem createBatches_length_of_le (k : ℕ) (hk : k ≠ 0) :
    ∀ (n : ℕ) (l : List α), l.length ≤ n →
      (createBatches l k).length = (l.length + k - 1) / k := by
  intro n
  induction n with
  | zero =>
    intro l hl
    have h0 : l = [] := List.eq_nil_of_length_eq_zero (Nat.le_zero.mp hl)
    subst h0
    simp only [createBatches_nil, List.length_nil, Nat.zero_add]
    exact (Nat.div_eq_of_lt (by omega)).symm
  | succ n ih =>
    intro l hl
    by_cases hl0 : l = []
    · subst hl0
      simp only [createBatches_nil, List.length_nil, Nat.zero_add]
      exact (Nat.div_eq_of_lt (by omega)).symm
    · have h1 : 0 < l.length := List.length_pos.mpr hl0
      rw [createBatches_cons l k hk hl0]
      simp only [List.length_cons]
      by_cases hle : l.length ≤ k
      · rw [List.drop_eq_nil_of_le hle, createBatches_nil]
        have hdiv : (l.length + k - 1) / k = 1 := by
          apply Nat.div_eq_of_lt_le <;> omega
        simp only [List.length_nil]
        omega
      · have hdrop : (l.drop k).length ≤ n := by
          simp only [List.length_drop]; omega
        rw [ih (l.drop k) hdrop]
        simp only [List.length_drop]
        have e1 : l.length - k + k - 1 = l.length - 1 := by omega
        have e2 : l.length + k - 1 = l.length - 1 + k := by omega
        rw [e1, e2, Nat.add_div_right _ (by omega)]

theorem createBatches_dropLast_of_le (k : ℕ) (hk : k ≠ 0) :
    ∀ (n : ℕ) (l : List α), l.length ≤ n →
      ∀ c ∈ (createBatches l k).dropLast, c.length = k := by
  intro n
  induction n with
  | zero =>
    intro l hl c hc
    have h0 : l = [] := List.eq_nil_of_length_eq_zero (Nat.le_zero.mp hl)
    subst h0
    simp [createBatches_nil] at hc
  | succ n ih =>
    intro l hl c hc
    by_cases hl0 : l = []
    · subst hl0; simp [createBatches_nil] at hc
    · have h1 : 0 < l.length := List.length_pos.mpr hl0
      rw [createBatches_cons l k hk hl0] at hc
      by_cases hle : l.length ≤ k
      · rw [List.drop_eq_nil_of_le hle, createBatches_nil] at hc
        simp at hc
      · have hdne : l.drop k ≠ [] := by
          intro h
          have hlen := congrArg List.length h
          simp only [List.length_drop, List.length_nil] at hlen
          omega
        have hne : createBatches (l.drop k) k ≠ [] := by
          rw [createBatches_cons _ k hk hdne]
          simp
        rw [List.dropLast_cons_of_ne_nil hne, List.mem_cons] at hc
        rcases hc with hc | hc
        · subst hc
          simp only [List.length_take]
          omega
        · exact ih (l.drop k) (by simp only [List.length_drop]; omega) c hc

theorem createBatches_sizes_of_le (k : ℕ) (hk : k ≠ 0) :
    ∀ (n : ℕ) (l : List α), l.length ≤ n →
      ∀ c ∈ createBatches l k, c.length ≤ k := by
  intro n
  induction n with
  | zero =>
    intro l hl c hc
    have h0 : l = [] := List.eq_nil_of_length_eq_zero (Nat.le_zero.mp hl)
    subst h0
    simp [createBatches_nil] at hc
  | succ n ih =>
    intro l hl c hc
    by_cases hl0 : l = []
    · subst hl0; simp [createBatches_nil] at hc
    · have h1 : 0 < l.length := List.length_pos.mpr hl0
      rw [createBatches_cons l k hk hl0, List.mem_cons] at hc
      rcases hc with hc | hc
      · subst hc
        simp only [List.length_take]
        omega
      · exact ih (l.drop k) (by simp only [List.length_drop]; omega) c hc

/-- C5: for every list of serial numbers and every chunk size k at least
1, createBatches yields ceil(n/k) chunks (in ℕ, (n + k - 1) / k), each
chunk before the last of size exactly k, every chunk of size at most k
(so the last may be smaller), and concatenating the chunks in order
reproduces the original list exactly — order and content preserved. -/
theorem createBatches_partition (l : List α) (k : ℕ) (hk : 1 ≤ k) :
    (createBatches l k).length = (l.length + k - 1) / k ∧
    (∀ c ∈ (createBatches l k).dropLast, c.length = k) ∧
    (∀ c ∈ createBatches l k, c.length ≤ k) ∧
    (createBatches l k).flatten = l :=
  ⟨createBatches_length_of_le k (by omega) l.length l le_rfl,
   createBatches_dropLast_of_le k (by omega) l.length l le_rfl,
   createBatches_sizes_of_le k (by omega) l.length l le_rfl,
   createBatches_flatten_of_le k (by omega) l.length l le_rfl⟩

/-- Witness for C5 at the list [1, 2, 3, 4, 5] with chunk size 2. -/
theorem createBatches_partition_witness :
    (createBatches [1, 2, 3, 4, 5] 2).length = ([1, 2, 3, 4, 5].length + 2 - 1) / 2 ∧
    (∀ c ∈ (createBatches [1, 2, 3, 4, 5] 2).dropLast, c.length = 2) ∧
    (∀ c ∈ createBatches [1, 2, 3, 4, 5] 2, c.length ≤ 2) ∧
    (createBatches [1, 2, 3, 4, 5] 2).flatten = [1, 2, 3, 4, 5] :=
  createBatches_partition [1, 2, 3, 4, 5] 2 (by norm_num)

/-! ### Termination behaviour of the createBatches loop -/

theorem batchLoopIdx_ge_of_pos (len k : ℤ) (hk : 1 ≤ k) :
    ∀ n : ℕ, len ≤ batchLoopIdx len k n ∨ (n : ℤ) ≤ batchLoopIdx len k n := by
  intro n
  induction n with
  | zero => right; simp [batchLoopIdx]
  | succ n ih =>
    by_cases h : batchLoopIdx len k n < len
    · right
      simp only [batchLoopIdx, if_pos h]
      rcases ih with ih | ih <;> push_cast <;> omega
    · left
      simp only [batchLoopIdx, if_neg h]
      omega

theorem batchLoopIdx_nonpos (len k : ℤ) (hk : k ≤ 0) :
    ∀ n : ℕ, batchLoopIdx len k n ≤ 0 := by
  intro n
  induction n with
  | zero => simp [batchLoopIdx]
  | succ n ih =>
    simp only [batchLoopIdx]
    split <;> omega

/-- C9: the createBatches loop terminates for every array when
batchSize is at least 1, since the index strictly increases each
iteration; for batchSize at most 0 and a non-empty array, the guard
i < array.length holds at every iteration (the loop never terminates)
and the index never advances toward the bound — it never increases, and
for batchSize = 0 it stays exactly 0. -/
theorem createBatches_loop_termination (l : List α) (k : ℤ) :
    (1 ≤ k → ∃ n : ℕ, ¬ batchLoopIdx l.length k n < l.length) ∧
    (k ≤ 0 → l ≠ [] →
      (∀ n : ℕ, batchLoopIdx l.length k n < l.length) ∧
      (∀ n : ℕ, batchLoopIdx l.length k (n + 1) ≤ batchLoopIdx l.length k n) ∧
      (k = 0 → ∀ n : ℕ, batchLoopIdx l.length k n = 0)) := by
  constructor
  · intro hk
    refine ⟨l.length, ?_⟩
    rcases batchLoopIdx_ge_of_pos (l.length : ℤ) k hk l.length with h | h <;> omega
  · intro hk hl
    have hpos : 0 < l.length := List.length_pos.mpr hl
    have hlen : (1 : ℤ) ≤ l.length := by exact_mod_cast hpos
    refine ⟨fun n => ?_, fun n => ?_, fun hk0 n => ?_⟩
    · have := batchLoopIdx_nonpos (l.length : ℤ) k hk n
      omega
    · have h1 := batchLoopIdx_nonpos (l.length : ℤ) k hk n
      simp only [batchLoopIdx]
      split <;> omega
    · subst hk0
      induction n with
      | zero => simp [batchLoopIdx]
      | succ n ihn =>
        simp only [batchLoopIdx, ihn]
        simp

/-- Witness for C9 at the three-element list [0, 1, 2], with batchSize 2
for the terminating case and batchSize 0 for the diverging one. -/
theorem createBatches_loop_termination_witness :
    (∃ n : ℕ, ¬ batchLoopIdx ([0, 1, 2] : List ℕ).length 2 n < ([0, 1, 2] : List ℕ).length) ∧
    (∀ n : ℕ, batchLoopIdx ([0, 1, 2] : List ℕ).length 0 n < ([0, 1, 2] : List ℕ).length) :=
  ⟨(createBatches_loop_termination ([0, 1, 2] : List ℕ) 2).1 (by norm_num),
   fun n =>
    ((createBatches_loop_termination ([0, 1, 2] : List ℕ) 0).2 (by norm_num)
      (by simp)).1 n⟩

/-! ### Admission timing of the rate limiter -/

theorem gateStep_start_lower (minInterval : ℚ) (s : GateState) (idle dur : ℚ) :
    s.lastRequestTime + minInterval ≤ (gateStep minInterval s idle dur).1 := by
  simp only [gateStep]
  split
  · linarith
  · linarith [le_of_not_lt (by assumption :
      ¬ s.now + idle - s.lastRequestTime < minInterval)]

theorem gateStep_lastRequestTime (minInterval : ℚ) (s : GateState) (idle dur : ℚ) :
    (gateStep minInterval s idle dur).2.lastRequestTime =
      (gateStep minInterval s idle dur).1 := by
  simp [gateStep]

theorem gateStarts_chain (minInterval : ℚ) :
    ∀ (items : List (ℚ × ℚ)) (s : GateState),
      List.Chain' (fun a b => a + minInterval ≤ b)
        (gateStarts minInterval s items) := by
  intro items
  induction items with
  | nil => intro s; simp [gateStarts]
  | cons item rest ih =>
    intro s
    rw [gateStarts, List.chain'_cons']
    refine ⟨?_, ih _⟩
    intro y hy
    cases rest with
    | nil => simp [gateStarts] at hy
    | cons item2 rest2 =>
      rw [gateStarts, List.head?_cons, Option.mem_some_iff] at hy
      subst hy
      have hlow := gateStep_start_lower minInterval
        (gateStep minInterval s item.1 item.2).2 item2.1 item2.2
      rw [gateStep_lastRequestTime] at hlow
      exact hlow

/-- C2: for every sequence of work items run through the rate limiter,
consecutive admission-start times are at least minInterval =
1000 / requestsPerSecond apart, measured admission-start to
admission-start (the chain relates each start to the next); and when the
very first execute call arrives at clock time t0 (at least minInterval
past the epoch, as any Date.now reading is), its work starts at exactly
t0 — zero artificial delay, because lastRequestTime is initialised to
0. -/
theorem rateLimiter_admission_spacing (requestsPerSecond t0 : ℚ)
    (items : List (ℚ × ℚ)) (h0 : minIntervalOf requestsPerSecond ≤ t0) :
    List.Chain' (fun a b => a + minIntervalOf requestsPerSecond ≤ b)
      (gateStarts (minIntervalOf requestsPerSecond) ⟨0, t0⟩ items) ∧
    ∀ d rest, items = (0, d) :: rest →
      (gateStarts (minIntervalOf requestsPerSecond) ⟨0, t0⟩ items).head? =
        some t0 := by
  refine ⟨gateStarts_chain _ items _, ?_⟩
  intro d rest hitems
  subst hitems
  rw [gateStarts, List.head?_cons]
  have hstep : (gateStep (minIntervalOf requestsPerSecond) ⟨0, t0⟩ 0 d).1 = t0 := by
    simp only [gateStep]
    rw [if_neg]
    · simp
    · simp only [add_zero, sub_zero]
      linarith
  rw [hstep]

/-- Witness for C2 at one request per second (minInterval 1000 ms), the
clock at 5000 ms, and two queued items of durations 30 ms and 10 ms with
the second execute call arriving 200 ms after the first item finished. -/
theorem rateLimiter_admission_spacing_witness :
    List.Chain' (fun a b => a + minIntervalOf 1 ≤ b)
      (gateStarts (minIntervalOf 1) ⟨0, 5000⟩ [(0, 30), (200, 10)]) ∧
    (gateStarts (minIntervalOf 1) ⟨0, 5000⟩ [(0, 30), (200, 10)]).head? =
      some 5000 :=
  ⟨(rateLimiter_admission_spacing 1 5000 [(0, 30), (200, 10)]
      (by norm_num [minIntervalOf])).1,
   (rateLimiter_admission_spacing 1 5000 [(0, 30), (200, 10)]
      (by norm_num [minIntervalOf])).2 30 [(200, 10)] rfl⟩

/-! ### Retry policy of the dispatcher -/

theorem fetchAttempts_always429 (parse : String → Except String JsVal)
    (transport : ℕ → Outcome) (sn : List String) (hsn : sn.length ≤ 10)
    (h429 : ∀ k, ∃ body, transport k = Outcome.http 429 body) :
    ∀ r k, fetchAttempts parse transport sn r k =
      ⟨.error (.rateLimitExceeded 429), r + 1, List.replicate r 1500⟩ := by
  intro r
  induction r with
  | zero =>
    intro k
    obtain ⟨body, hb⟩ := h429 k
    rw [fetchAttempts, if_neg (by omega), hb]
    simp
  | succ r ih =>
    intro k
    obtain ⟨body, hb⟩ := h429 k
    rw [fetchAttempts, if_neg (by omega), hb]
    simp [ih (k + 1), List.replicate_succ]

/-- C3: against a transport whose every attempt answers HTTP 429,
fetchDeviceData with its default retry budget performs 4 transport
attempts — the original plus exactly 3 retries — sleeps the fixed
1500 ms before each of the 3 retries, and settles in the
RateLimitExceeded rejection with the message of the source. -/
theorem fetchDeviceData_always429 (parse : String → Except String JsVal)
    (transport : ℕ → Outcome) (sn : List String) (hsn : sn.length ≤ 10)
    (h429 : ∀ k, ∃ body, transport k = Outcome.http 429 body) :
    fetchDeviceData parse transport sn =
      ⟨.error (.rateLimitExceeded 429), 4, [1500, 1500, 1500]⟩ ∧
    (FetchErr.rateLimitExceeded 429).message =
      "Rate limit exceeded after retries. Status: 429" := by
  constructor
  · have h := fetchAttempts_always429 parse transport sn hsn h429 3 0
    rw [fetchDeviceData, h]
    rfl
  · rfl

/-- Witness for C3: a transport answering 429 on every attempt, one
serial number. -/
theorem fetchDeviceData_always429_witness :
    fetchDeviceData (fun _ => .error "") (fun _ => .http 429 "") ["SN-000"] =
      ⟨.error (.rateLimitExceeded 429), 4, [1500, 1500, 1500]⟩ ∧
    (FetchErr.rateLimitExceeded 429).message =
      "Rate limit exceeded after retries. Status: 429" :=
  fetchDeviceData_always429 _ _ _ (by decide) (fun _ => ⟨"", rfl⟩)

/-- C6: when the transport answers HTTP 401 on the first attempt,
fetchDeviceData rejects immediately with the AuthenticationError of the
source after exactly one attempt and no retry sleep, whatever retry
budget remains. -/
theorem fetchDeviceData_auth401 (parse : String → Except String JsVal)
    (transport : ℕ → Outcome) (sn : List String) (hsn : sn.length ≤ 10)
    (h401 : ∃ body, transport 0 = Outcome.http 401 body) :
    (∀ retries, fetchAttempts parse transport sn retries 0 =
      ⟨.error (.authFailed 401), 1, []⟩) ∧
    fetchDeviceData parse transport sn = ⟨.error (.authFailed 401), 1, []⟩ ∧
    (FetchErr.authFailed 401).message = "Authentication failed. Status: 401" := by
  obtain ⟨body, hb⟩ := h401
  have hall : ∀ retries, fetchAttempts parse transport sn retries 0 =
      ⟨.error (.authFailed 401), 1, []⟩ := by
    intro retries
    rw [fetchAttempts, if_neg (by omega), hb]
    simp
  exact ⟨hall, by rw [fetchDeviceData]; exact hall 3, rfl⟩

/-- Witness for C6: a transport answering 401, one serial number, and a
remaining budget of 7 for the budget-independence conjunct. -/
theorem fetchDeviceData_auth401_witness :
    fetchAttempts (fun _ => .error "") (fun _ => .http 401 "denied")
      ["SN-000"] 7 0 = ⟨.error (.authFailed 401), 1, []⟩ ∧
    fetchDeviceData (fun _ => .error "") (fun _ => .http 401 "denied")
      ["SN-000"] = ⟨.error (.authFailed 401), 1, []⟩ :=
  ⟨(fetchDeviceData_auth401 _ _ _ (by decide) ⟨"denied", rfl⟩).1 7,
   (fetchDeviceData_auth401 _ _ _ (by decide) ⟨"denied", rfl⟩).2.1⟩

theorem fetchAttempts_no_validation (parse : String → Except String JsVal)
    (transport : ℕ → Outcome) (sn : List String) (h : sn.length ≤ 10) :
    ∀ retries k, (fetchAttempts parse transport sn retries k).result ≠
      .error .validation := by
  intro retries
  induction retries with
  | zero =>
    intro k
    rw [fetchAttempts, if_neg (by omega)]
    cases transport k with
    | http status body =>
      by_cases h200 : status = 200
      · simp only [if_pos h200]
        cases parse body <;> simp
      · simp only [if_neg h200]
        by_cases h429 : status = 429
        · simp [h429]
        · by_cases h401 : status = 401 <;> simp [h429, h401]
    | netError m => simp
  | succ r ih =>
    intro k
    rw [fetchAttempts, if_neg (by omega)]
    cases transport k with
    | http status body =>
      by_cases h200 : status = 200
      · simp only [if_pos h200]
        cases parse body <;> simp
      · simp only [if_neg h200]
        by_cases h429 : status = 429
        · simp only [if_pos h429]
          simpa using ih (k + 1)
        · simp only [if_neg h429]
          by_cases h401 : status = 401
          · simp [h401]
          · simp only [if_neg h401]
            by_cases h500 : status ≥ 500
            · simp only [if_pos h500]
              simpa using ih (k + 1)
            · simp [h500]
    | netError m => simpa using ih (k + 1)

/-- C8: a fetchDeviceData call on more than 10 serial numbers settles in
the ValidationError with zero transport attempts — before any network
request; on at most 10 serial numbers no validation rejection ever
occurs, whatever the transport, the parse, the remaining budget and the
attempt number. -/
theorem fetchDeviceData_sizeCap (parse : String → Except String JsVal)
    (transport : ℕ → Outcome) (sn : List String) (retries k : ℕ) :
    (sn.length > 10 →
      fetchDeviceData parse transport sn = ⟨.error .validation, 0, []⟩) ∧
    (sn.length ≤ 10 →
      (fetchAttempts parse transport sn retries k).result ≠
        .error .validation) := by
  constructor
  · intro h
    rw [fetchDeviceData, fetchAttempts, if_pos h]
  · intro h
    exact fetchAttempts_no_validation parse transport sn h retries k

/-- Witness for C8: 11 serial numbers reject with ValidationError and
zero attempts; 1 serial number never rejects with ValidationError. -/
theorem fetchDeviceData_sizeCap_witness :
    fetchDeviceData (fun _ => .error "") (fun _ => .http 200 "")
      (List.replicate 11 "SN-000") = ⟨.error .validation, 0, []⟩ ∧
    (fetchAttempts (fun _ => .error "") (fun _ => .http 200 "")
      ["SN-000"] 3 0).result ≠ .error .validation :=
  ⟨(fetchDeviceData_sizeCap _ _ _ 3 0).1 (by decide),
   (fetchDeviceData_sizeCap _ _ _ 3 0).2 (by decide)⟩

/-! ### Concrete evaluations of the numeric helpers -/

theorem toFixed2Nonneg_zero : toFixed2Nonneg 0 = "0.00" := by
  simp [toFixed2Nonneg]
  norm_num
  decide

theorem jsParseFloat_kW : jsParseFloat "2.5 kW" = .fin (5 / 2) := by
  simp [jsParseFloat, parseDecimal, takeDigits, applyExponent, isJsSpace]
  norm_num

theorem jsParseFloat_bad : jsParseFloat "bad" = .nan := by
  simp [jsParseFloat, parseDecimal, takeDigits, applyExponent, isJsSpace]

theorem toFixed2_fiveHalves : (JsNum.fin (5 / 2)).toFixed2 = "2.50" := by
  simp [JsNum.toFixed2, toFixed2Nonneg]
  norm_num
  decide

theorem toFixed2_fiveHalves_by2 : ((JsNum.fin (5 / 2)).divByCount 2).toFixed2 = "1.25" := by
  simp [JsNum.divByCount, JsNum.toFixed2, toFixed2Nonneg]
  norm_num
  decide

theorem toFixed2_half_rate : ((JsNum.fin 1).divByCount 2).mul100.toFixed2 = "50.00" := by
  simp [JsNum.divByCount, JsNum.mul100, JsNum.toFixed2, toFixed2Nonneg]
  norm_num
  decide

/-! ### Behaviour of aggregateResults -/

/-- C1 (failing-input evaluation): on a run whose successful payloads
contain zero devices in total — here one success whose data array is
empty — the unguarded divisions of the source produce NaN, so the summary
reports averagePowerKW as the string NaN and the success rate as NaN%,
not the zeros the specification prescribes. No fault is raised: the
division by zero yields NaN silently. -/
theorem aggregateResults_zeroDevices_NaN :
    aggregateResults [JsVal.obj [("data", JsVal.arr [])]] =
      .ok { totalDevices := 0, onlineDevices := 0, offlineDevices := 0,
            totalPower := .fin 0, devices := [],
            summary := { totalDevices := 0, onlineDevices := 0,
                         offlineDevices := 0, totalPowerKW := "0.00",
                         averagePowerKW := "NaN", successRate := "NaN%" } } := by
  simp [aggregateResults, List.foldlM, processResponse, responseData,
    JsVal.truthy, JsVal.getField, mkSummary, initAggState, JsNum.divByCount,
    JsNum.mul100, JsNum.toFixed2, toFixed2Nonneg_zero, bind, Except.bind,
    pure, Except.pure, List.lookup]

theorem processDevice_nonNumericPower (acc : AggState) (device pw : JsVal)
    (hpw : device.getField "power" = .ok pw)
    (hnan : (jsParseFloatVal pw).isNaN = true) :
    ∃ a, processDevice acc device = .ok a ∧
      a.totalPower = acc.totalPower ∧
      a.totalDevices = acc.totalDevices + 1 ∧
      a.onlineDevices + a.offlineDevices =
        acc.onlineDevices + acc.offlineDevices + 1 := by
  obtain ⟨st, hst⟩ : ∃ st, device.getField "status" = .ok st := by
    cases device <;> simp [JsVal.getField] at hpw ⊢
  refine ⟨if isOnline st then
      { acc with totalDevices := acc.totalDevices + 1,
                 devices := acc.devices ++ [device],
                 onlineDevices := acc.onlineDevices + 1 }
    else
      { acc with totalDevices := acc.totalDevices + 1,
                 devices := acc.devices ++ [device],
                 offlineDevices := acc.offlineDevices + 1 }, ?_, ?_, ?_, ?_⟩
  · simp only [processDevice, hst, hpw, bind, Except.bind, hnan, pure,
      Except.pure]
    simp
  · split <;> rfl
  · split <;> rfl
  · split <;> simp <;> omega

/-- C7: a device record whose power reading parses to NaN still counts
toward totalDevices and toward exactly one of the online/offline counts,
but leaves totalPower unchanged; and on the single success payload of
the specification example — an Online device at 2.5 kW and an Offline
device with power "bad" — the report shows totalDevices 2,
onlineDevices 1, offlineDevices 1, total power 2.50, average power 1.25
and success rate 50.00%. -/
theorem aggregateResults_nonNumericPower (acc : AggState) (device pw : JsVal)
    (hpw : device.getField "power" = .ok pw)
    (hnan : (jsParseFloatVal pw).isNaN = true) :
    (∃ a, processDevice acc device = .ok a ∧
      a.totalPower = acc.totalPower ∧
      a.totalDevices = acc.totalDevices + 1 ∧
      a.onlineDevices + a.offlineDevices =
        acc.onlineDevices + acc.offlineDevices + 1) ∧
    aggregateResults [JsVal.obj [("data", JsVal.arr
        [JsVal.obj [("status", JsVal.str "Online"), ("power", JsVal.str "2.5 kW")],
         JsVal.obj [("status", JsVal.str "Offline"), ("power", JsVal.str "bad")]])]] =
      .ok { totalDevices := 2, onlineDevices := 1, offlineDevices := 1,
            totalPower := .fin (5 / 2),
            devices :=
              [JsVal.obj [("status", JsVal.str "Online"), ("power", JsVal.str "2.5 kW")],
               JsVal.obj [("status", JsVal.str "Offline"), ("power", JsVal.str "bad")]],
            summary := { totalDevices := 2, onlineDevices := 1, offlineDevices := 1,
                         totalPowerKW := "2.50", averagePowerKW := "1.25",
                         successRate := "50.00%" } } := by
  constructor
  · exact processDevice_nonNumericPower acc device pw hpw hnan
  · simp [aggregateResults, List.foldlM, processResponse, responseData,
      processDevice, JsVal.truthy, JsVal.getField, isOnline, jsParseFloatVal,
      jsParseFloat_kW, jsParseFloat_bad, JsNum.isNaN, JsNum.add, mkSummary,
      initAggState, List.lookup, toFixed2_fiveHalves, toFixed2_fiveHalves_by2,
      toFixed2_half_rate, bind, Except.bind, pure, Except.pure]

/-- Witness for C7 at the Offline device with power "bad" against the
empty accumulator. -/
theorem aggregateResults_nonNumericPower_witness :
    (∃ a, processDevice initAggState
        (JsVal.obj [("status", JsVal.str "Offline"), ("power", JsVal.str "bad")]) = .ok a ∧
      a.totalPower = initAggState.totalPower ∧
      a.totalDevices = initAggState.totalDevices + 1 ∧
      a.onlineDevices + a.offlineDevices =
        initAggState.onlineDevices + initAggState.offlineDevices + 1) ∧
    aggregateResults [JsVal.obj [("data", JsVal.arr
        [JsVal.obj [("status", JsVal.str "Online"), ("power", JsVal.str "2.5 kW")],
         JsVal.obj [("status", JsVal.str "Offline"), ("power", JsVal.str "bad")]])]] =
      .ok { totalDevices := 2, onlineDevices := 1, offlineDevices := 1,
            totalPower := .fin (5 / 2),
            devices :=
              [JsVal.obj [("status", JsVal.str "Online"), ("power", JsVal.str "2.5 kW")],
               JsVal.obj [("status", JsVal.str "Offline"), ("power", JsVal.str "bad")]],
            summary := { totalDevices := 2, onlineDevices := 1, offlineDevices := 1,
                         totalPowerKW := "2.50", averagePowerKW := "1.25",
                         successRate := "50.00%" } } :=
  aggregateResults_nonNumericPower initAggState
    (JsVal.obj [("status", JsVal.str "Offline"), ("power", JsVal.str "bad")])
    (JsVal.str "bad")
    (by simp [JsVal.getField, List.lookup])
    (by simp [jsParseFloatVal, jsParseFloat_bad, JsNum.isNaN])

/-- C10 (counterexample): aggregateResults is not total over arbitrary
input lists — a success payload whose data array contains a null record
makes the `device.status` access throw a TypeError, which escapes
aggregateResults. -/
theorem aggregateResults_nullRecord_throws :
    aggregateResults [JsVal.obj [("data", JsVal.arr [JsVal.null])]] =
      .error ("Cannot read properties of null (reading \x27status\x27)") := by
  simp [aggregateResults, List.foldlM, processResponse, responseData,
    processDevice, JsVal.truthy, JsVal.getField, bind, Except.bind,
    List.lookup]

/-- C10 (amended): any top-level element of allResults that is null or
undefined, or whose data field is not an array (in particular absent,
hence undefined), is skipped silently — removing it anywhere in the list
leaves the whole aggregation result unchanged, so it contributes nothing
to any count, to the devices list, or to the total power. -/
theorem aggregateResults_skips_malformed (l1 l2 : List JsVal) (r : JsVal)
    (h : r = JsVal.null ∨ r = JsVal.undefined ∨
      ∃ d, r.getField "data" = .ok d ∧ d.isArray = false) :
    aggregateResults (l1 ++ r :: l2) = aggregateResults (l1 ++ l2) := by
  have hskip : ∀ acc, processResponse acc r = .ok acc := by
    intro acc
    rcases h with h | h | ⟨d, hd, hda⟩
    · subst h; simp [processResponse, responseData, JsVal.truthy]
    · subst h; simp [processResponse, responseData, JsVal.truthy]
    · simp only [processResponse, responseData]
      by_cases ht : r.truthy
      · rw [if_pos ht, hd]
        cases d with
        | arr elems => simp [JsVal.isArray] at hda
        | null => simp [JsVal.truthy]
        | undefined => simp [JsVal.truthy]
        | bool b => cases b <;> simp [JsVal.truthy]
        | num q => by_cases hq : q = 0 <;> simp [JsVal.truthy, hq]
        | str s => by_cases hs : s = "" <;> simp [JsVal.truthy, hs]
        | obj fields => simp [JsVal.truthy]
      · rw [if_neg ht]
  have hfold : (l1 ++ r :: l2).foldlM processResponse initAggState =
      (l1 ++ l2).foldlM processResponse initAggState := by
    rw [List.foldlM_append, List.foldlM_append]
    congr 1
    funext a
    rw [List.foldlM_cons, hskip a]
    rfl
  simp only [aggregateResults, hfold]

/-- Witness for C10 (amended) at a single null response. -/
theorem aggregateResults_skips_malformed_witness :
    aggregateResults [JsVal.null] = aggregateResults [] :=
  aggregateResults_skips_malformed [] [] JsVal.null (Or.inl rfl)

/-! ### Behaviour of the batch orchestrator -/

theorem runChunks_spec (outcomes : ℕ → Except String JsVal)
    (hok : ∀ j r, outcomes j = .ok r → (dataLengthAccess r).isOk = true) :
    ∀ (chunks : List (List String)) (i0 : ℕ),
      runChunks outcomes i0 chunks =
        ((List.enumFrom i0 chunks).filterMap (fun p => (outcomes p.1).toOption),
         (List.enumFrom i0 chunks).filterMap (fun p =>
            match outcomes p.1 with
            | .ok _ => none
            | .error m => some ⟨p.1 + 1, p.2, m⟩)) := by
  intro chunks
  induction chunks with
  | nil => intro i0; simp [runChunks, List.enumFrom]
  | cons c rest ih =>
    intro i0
    rw [runChunks]
    cases ho : outcomes i0 with
    | ok r =>
      have hacc := hok i0 r ho
      cases hE : dataLengthAccess r with
      | error m => rw [hE] at hacc; simp [Except.isOk, Except.toBool] at hacc
      | ok v =>
        simp [ho, hE, ih (i0 + 1), List.enumFrom, Except.toOption]
    | error m =>
      simp [ho, ih (i0 + 1), List.enumFrom, Except.toOption]

theorem runChunks_count (outcomes : ℕ → Except String JsVal)
    (hok : ∀ j r, outcomes j = .ok r → (dataLengthAccess r).isOk = true) :
    ∀ (chunks : List (List String)) (i0 : ℕ),
      (runChunks outcomes i0 chunks).1.length +
        (runChunks outcomes i0 chunks).2.length = chunks.length := by
  intro chunks
  induction chunks with
  | nil => intro i0; simp [runChunks]
  | cons c rest ih =>
    intro i0
    rw [runChunks]
    cases ho : outcomes i0 with
    | ok r =>
      have hacc := hok i0 r ho
      cases hE : dataLengthAccess r with
      | error m => rw [hE] at hacc; simp [Except.isOk, Except.toBool] at hacc
      | ok v =>
        have h2 := ih (i0 + 1)
        simp only [List.length_cons]
        simp [hE]
        omega
    | error m =>
      have h2 := ih (i0 + 1)
      simp only [List.length_cons]
      omega

/-- C4 (amended): in any run whose successful payloads all support the
`result.data.length` access of the success log, every chunk of the 50 is
resolved exactly once (successes plus failures count the batches), each
failed chunk yields exactly one error record carrying its 1-based batch
number, its serial numbers and the rejection message, the run reaches
every chunk whatever failures occur, and the aggregation is built from
exactly the successful payloads in order. -/
theorem aggregateAllDevices_failureIsolation (outcomes : ℕ → Except String JsVal)
    (hok : ∀ j r, outcomes j = .ok r → (dataLengthAccess r).isOk = true) :
    (aggregateAllDevices outcomes).batchesProcessed =
      (createBatches (generateSerialNumbers 500) 10).length ∧
    (aggregateAllDevices outcomes).batchesSuccessful +
        (aggregateAllDevices outcomes).batchesFailed =
      (createBatches (generateSerialNumbers 500) 10).length ∧
    (aggregateAllDevices outcomes).errors =
      (List.enumFrom 0 (createBatches (generateSerialNumbers 500) 10)).filterMap
        (fun p => match outcomes p.1 with
          | .ok _ => none
          | .error m => some ⟨p.1 + 1, p.2, m⟩) ∧
    (aggregateAllDevices outcomes).aggregated =
      aggregateResults
        ((List.enumFrom 0 (createBatches (generateSerialNumbers 500) 10)).filterMap
          (fun p => (outcomes p.1).toOption)) := by
  have hspec := runChunks_spec outcomes hok (createBatches (generateSerialNumbers 500) 10) 0
  have hc := runChunks_count outcomes hok (createBatches (generateSerialNumbers 500) 10) 0
  simp only [aggregateAllDevices, hspec] at hc ⊢
  exact ⟨trivial, hc, trivial, trivial⟩

/-- Witness for C4 (amended): batch index 7 rejects with the message
boom, every other batch resolves to a payload with an empty data
array. -/
theorem aggregateAllDevices_failureIsolation_witness :
    (aggregateAllDevices (fun j => if j = 7 then .error "boom"
        else .ok (JsVal.obj [("data", JsVal.arr [])]))).batchesProcessed =
      (createBatches (generateSerialNumbers 500) 10).length ∧
    (aggregateAllDevices (fun j => if j = 7 then .error "boom"
        else .ok (JsVal.obj [("data", JsVal.arr [])]))).batchesSuccessful +
        (aggregateAllDevices (fun j => if j = 7 then .error "boom"
          else .ok (JsVal.obj [("data", JsVal.arr [])]))).batchesFailed =
      (createBatches (generateSerialNumbers 500) 10).length ∧
    (aggregateAllDevices (fun j => if j = 7 then .error "boom"
        else .ok (JsVal.obj [("data", JsVal.arr [])]))).errors =
      (List.enumFrom 0 (createBatches (generateSerialNumbers 500) 10)).filterMap
        (fun p => match (if p.1 = 7 then .error "boom"
            else .ok (JsVal.obj [("data", JsVal.arr [])]) : Except String JsVal) with
          | .ok _ => none
          | .error m => some ⟨p.1 + 1, p.2, m⟩) ∧
    (aggregateAllDevices (fun j => if j = 7 then .error "boom"
        else .ok (JsVal.obj [("data", JsVal.arr [])]))).aggregated =
      aggregateResults
        ((List.enumFrom 0 (createBatches (generateSerialNumbers 500) 10)).filterMap
          (fun p => ((if p.1 = 7 then .error "boom"
            else .ok (JsVal.obj [("data", JsVal.arr [])]) : Except String JsVal)).toOption)) :=
  aggregateAllDevices_failureIsolation
    (fun j => if j = 7 then .error "boom" else .ok (JsVal.obj [("data", JsVal.arr [])]))
    (by
      intro j r h
      by_cases hj : j = 7
      · simp [hj] at h
      · simp only [if_neg hj] at h
        cases h
        decide)

theorem runChunks_const_emptyObj :
    ∀ (chunks : List (List String)) (i0 : ℕ),
      (runChunks (fun _ => Except.ok (JsVal.obj [])) i0 chunks).1.length = chunks.length ∧
      (runChunks (fun _ => Except.ok (JsVal.obj [])) i0 chunks).2.length = chunks.length := by
  intro chunks
  induction chunks with
  | nil => intro i0; simp [runChunks]
  | cons c rest ih =>
    intro i0
    rw [runChunks]
    have h := ih (i0 + 1)
    simp only []
    have hE : dataLengthAccess (JsVal.obj []) =
        .error ("Cannot read properties of undefined (reading \x27length\x27)") := rfl
    simp [hE, h.1, h.2]

/-- C4 (counterexample): a run whose every batch resolves successfully
to the payload of an empty JSON object is recorded 50 times as a success
and 50 times as a failure over its 50 batches — the success log throws
reading result.data.length after the success was pushed, so chunks are
not resolved to success or failure exactly once. -/
theorem aggregateAllDevices_doubleResolution :
    (aggregateAllDevices (fun _ => .ok (JsVal.obj []))).batchesProcessed = 50 ∧
    (aggregateAllDevices (fun _ => .ok (JsVal.obj []))).batchesSuccessful = 50 ∧
    (aggregateAllDevices (fun _ => .ok (JsVal.obj []))).batchesFailed = 50 := by
  have hlen : (createBatches (generateSerialNumbers 500) 10).length = 50 := by
    rw [createBatches_length_of_le 10 (by omega) (generateSerialNumbers 500).length
      (generateSerialNumbers 500) le_rfl]
    simp [generateSerialNumbers]
  have h := runChunks_const_emptyObj (createBatches (generateSerialNumbers 500) 10) 0
  simp only [aggregateAllDevices]
  exact ⟨hlen, by rw [h.1, hlen], by rw [h.2, hlen]⟩

end EnergyGrid
